import Mathlib

/-!
Verification development for the cloe multi-provider food-analysis engine.

The definitions below are a shallow embedding of the JavaScript/TypeScript
source:

* `src/packages/lit-ai/src/actions/food-analysis.js` — the Lit action:
  `callOpenRouter` (Provider Invoker), the `Promise.allSettled` fan-out,
  and `aggregateResults` (Aggregator);
* `src/packages/lit-ai/src/decentralized-ai-service.ts` — the
  `DecentralizedAIService` class (`initialize`, `analyzeFood`,
  `analyzeFoodFallback`, `disconnect`);
* `src/apps/web/src/components/AddMeal.tsx` — the `analyzeImage` caller
  that drives the primary path and the single fallback step.

Modelling conventions:

* JS numbers are modelled as `ℚ` (ideal exact arithmetic; the source never
  relies on float-specific behaviour in the merged claims).
* `Math.round` rounds half toward positive infinity, i.e. `⌊x + 1/2⌋`.
* The JS `Map` (insertion-ordered, `set` on an existing key keeps its
  position) is modelled as an insertion-ordered association list.
* `String.prototype.toLowerCase` / `trim` are modelled over the character
  list (`jsToLower`, `jsTrim`).
* Network effects are modelled by passing each provider call's observable
  outcome (`ProviderResponse`) as data; everything after the response is
  received is translated from the source.
-/

/-- Model of JS `Math.round`: round half toward positive infinity. -/
def jsRound (q : ℚ) : ℤ := ⌊q + 1/2⌋

/-- Model of JS `String.prototype.toLowerCase` (ASCII case mapping). -/
def jsToLower (s : String) : String := String.mk (s.data.map Char.toLower)

/-- Model of JS `String.prototype.trim`: drop leading and trailing whitespace. -/
def jsTrim (s : String) : String :=
  String.mk (((s.data.dropWhile Char.isWhitespace).reverse.dropWhile Char.isWhitespace).reverse)

/-- Normalized item key, from `food-analysis.js` line 122:
`item.name.toLowerCase().trim()`. -/
def normKey (s : String) : String := jsTrim (jsToLower s)

/-- One food line item, the element shape of the `items` array produced by a
provider (`food-analysis.js` prompt schema, lines 13-23). -/
structure Item where
  name : String
  quantity : ℚ
  unit : String
  calories : ℚ
  carbs : ℚ
  fats : ℚ
  proteins : ℚ
deriving DecidableEq

/-- The `totalNutrition` record (`food-analysis.js` lines 24-29). -/
structure Totals where
  calories : ℚ
  carbs : ℚ
  fats : ℚ
  proteins : ℚ
deriving DecidableEq

/-- One provider's parsed payload: the JSON object `callOpenRouter` returns on
success (`items` plus `totalNutrition`). -/
structure SourceResult where
  items : List Item
  totalNutrition : Totals
deriving DecidableEq

/-- Normalized key of an item, as the merge loop computes it. -/
def keyOf (it : Item) : String := normKey it.name

/-- Pairwise merge of two items with the same key, from `food-analysis.js`
lines 126-134: `name` is taken from the incoming item, `unit` from the
existing one; `quantity`/`calories` use integer rounding of the running
average, `carbs`/`fats`/`proteins` one-decimal rounding. -/
def mergeItem (existing incoming : Item) : Item :=
  { name := incoming.name
    quantity := (jsRound ((existing.quantity + incoming.quantity) / 2) : ℚ)
    unit := existing.unit
    calories := (jsRound ((existing.calories + incoming.calories) / 2) : ℚ)
    carbs := (jsRound (((existing.carbs + incoming.carbs) / 2) * 10) : ℚ) / 10
    fats := (jsRound (((existing.fats + incoming.fats) / 2) * 10) : ℚ) / 10
    proteins := (jsRound (((existing.proteins + incoming.proteins) / 2) * 10) : ℚ) / 10 }

/-- One step of the merge loop body (`food-analysis.js` lines 121-138): the JS
`Map` is an insertion-ordered association list; `itemMap.has(key)` merges into
the (unique) entry for the key in place, otherwise `itemMap.set(key, item)`
appends a fresh entry. -/
def insertItem : List (String × Item) → Item → List (String × Item)
  | [], it => [(keyOf it, it)]
  | (k, v) :: rest, it =>
    if k = keyOf it then (k, mergeItem v it) :: rest
    else (k, v) :: insertItem rest it

/-- The full map-building pass of `aggregateResults` (`food-analysis.js`
lines 116-140): fold every item of every source result into the item map in
provider-arrival order. -/
def buildItemMap (results : List SourceResult) : List (String × Item) :=
  results.foldl (fun m r => r.items.foldl insertItem m) []

/-- The `totalNutrition` reduce of `aggregateResults` (`food-analysis.js`
lines 145-150): fieldwise sum over the merged item list starting from zero. -/
def sumTotals (items : List Item) : Totals :=
  items.foldl
    (fun acc it =>
      { calories := acc.calories + it.calories
        carbs := acc.carbs + it.carbs
        fats := acc.fats + it.fats
        proteins := acc.proteins + it.proteins })
    { calories := 0, carbs := 0, fats := 0, proteins := 0 }

/-- Confidence grades used by the engine. -/
inductive Confidence where
  | high
  | medium
  | low
deriving DecidableEq

/-- Output shape of `aggregateResults`. In the single-result branch the JS
function returns the raw provider payload, which carries no `providersUsed`
or `confidence` field; those fields are therefore `Option`-valued here,
`none` meaning the field is absent on the returned object. -/
structure AggOutput where
  items : List Item
  totalNutrition : Totals
  providersUsed : Option ℕ
  confidence : Option Confidence
deriving DecidableEq

/-- `aggregateResults` (`food-analysis.js` lines 110-158). With exactly one
source result it returns that payload unchanged (no `providersUsed`, no
`confidence`); otherwise it rebuilds the item list through the merge map,
recomputes totals as a sum, and sets `providersUsed` to the source count and
`confidence` to `high` iff at least two sources contributed. -/
def aggregateResults : List SourceResult → AggOutput
  | [r] =>
    { items := r.items
      totalNutrition := r.totalNutrition
      providersUsed := none
      confidence := none }
  | rs =>
    let finalItems := (buildItemMap rs).map Prod.snd
    { items := finalItems
      totalNutrition := sumTotals finalItems
      providersUsed := some rs.length
      confidence := some (if 2 ≤ rs.length then Confidence.high else Confidence.medium) }

/-- CLAIM C3. Merging two items from different providers whose
lowercase-trimmed names are equal yields one merged item whose numeric fields
are `round((existing + incoming) / 2)` — integer rounding for `quantity` and
`calories`, one-decimal rounding for `carbs`, `fats` and `proteins` — and
whose `unit` is retained from the first-seen item. -/
theorem aggregate_pair_merge_rule (a b : Item) (ta tb : Totals)
    (h : normKey a.name = normKey b.name) :
    (aggregateResults [⟨[a], ta⟩, ⟨[b], tb⟩]).items =
      [{ name := b.name
         quantity := (jsRound ((a.quantity + b.quantity) / 2) : ℚ)
         unit := a.unit
         calories := (jsRound ((a.calories + b.calories) / 2) : ℚ)
         carbs := (jsRound (((a.carbs + b.carbs) / 2) * 10) : ℚ) / 10
         fats := (jsRound (((a.fats + b.fats) / 2) * 10) : ℚ) / 10
         proteins := (jsRound (((a.proteins + b.proteins) / 2) * 10) : ℚ) / 10 }] := by
  simp [aggregateResults, buildItemMap, insertItem, keyOf, h, mergeItem]

/-- CLAIM C3 witness: the spec's own example. Merging
`{name := "Rice", quantity := 150, calories := 200}` with
`{name := "rice", quantity := 170, calories := 220}` (unit `"g"`, zero
macros) yields quantity `160`, calories `210`, unit `"g"` from the
first-seen item, key-matched case-insensitively. -/
theorem aggregate_pair_merge_rule_witness :
    (aggregateResults
        [⟨[⟨"Rice", 150, "g", 200, 0, 0, 0⟩], ⟨200, 0, 0, 0⟩⟩,
         ⟨[⟨"rice", 170, "ml", 220, 0, 0, 0⟩], ⟨220, 0, 0, 0⟩⟩]).items =
      [⟨"rice", 160, "g", 210, 0, 0, 0⟩] := by
  rw [aggregate_pair_merge_rule _ _ _ _ (by decide)]
  norm_num [jsRound]

/-- Observable outcome of one provider HTTP call, as seen by `callOpenRouter`
(`food-analysis.js` lines 41-87): the fetch throws (transport error), the
response has a non-2xx status (`!response.ok`), the response body cannot be
parsed into a payload (`JSON.parse` or the `choices[0].message.content`
access throws), or a payload parses successfully. -/
inductive ProviderResponse where
  | transportError
  | httpError (status : ℕ)
  | parseFailure
  | payload (p : SourceResult)
deriving DecidableEq

/-- `callOpenRouter` (`food-analysis.js` lines 41-87): every throw inside the
`try` is caught and converted to `null` (`none`); a successfully parsed
payload is returned as-is — the function performs no check on the parsed
payload, in particular none on the length of its item list. -/
def callOpenRouter : ProviderResponse → Option SourceResult
  | ProviderResponse.payload p => some p
  | _ => none

/-- One `Promise.allSettled` slot: a fulfilled promise carrying the value of
`callOpenRouter` (possibly `null` = `none`), or a rejected promise. -/
inductive Settled where
  | fulfilled (value : Option SourceResult)
  | rejected
deriving DecidableEq

/-- Settling one dispatched call: `callOpenRouter` catches internally and
never rejects, so every slot is fulfilled with its returned value. -/
def settleCall (r : ProviderResponse) : Settled := Settled.fulfilled (callOpenRouter r)

/-- The filter predicate of `food-analysis.js` line 102:
`result.status === 'fulfilled' && result.value !== null`. -/
def isValid : Settled → Bool
  | Settled.fulfilled (some _) => true
  | _ => false

/-- The value extraction of `food-analysis.js` line 103 (`result.value`). -/
def settledValue : Settled → Option SourceResult
  | Settled.fulfilled v => v
  | Settled.rejected => none

/-- The Fan-Out Coordinator (`food-analysis.js` lines 96-103): settle all
dispatched calls, keep the fulfilled non-null slots, extract their values. -/
def fanOut (rs : List ProviderResponse) : List SourceResult :=
  ((rs.map settleCall).filter isValid).filterMap settledValue

/-- Specification-side description of "exactly the successful results": the
payloads of the responses that parsed successfully, in dispatch order. -/
def successfulPayloads (rs : List ProviderResponse) : List SourceResult :=
  rs.filterMap fun r =>
    match r with
    | ProviderResponse.payload p => some p
    | _ => none

/-- Helper: the settle-filter-extract pipeline of the fan-out produces
exactly the payloads of the successfully parsed responses, in order. -/
theorem fanOut_eq_successfulPayloads (l : List ProviderResponse) :
    fanOut l = successfulPayloads l := by
  induction l with
  | nil => rfl
  | cons r t ih =>
    cases r <;>
      simp [fanOut, successfulPayloads, settleCall, callOpenRouter, isValid,
        settledValue] at ih ⊢ <;>
      exact ih

/-- CLAIM C5. The fan-out settles all dispatched calls (one settled slot per
dispatched call), converts every failure to a failure value rather than an
exception, and returns exactly the successful results; removing or inserting
a failing call anywhere leaves the coordinator's output unchanged, so one
provider's failure never affects what the others contribute. -/
theorem fanOut_settles_all_returns_successes (rs : List ProviderResponse) :
    fanOut rs = successfulPayloads rs ∧
    (rs.map settleCall).length = rs.length ∧
    (∀ pre post r, callOpenRouter r = none →
      fanOut (pre ++ r :: post) = fanOut (pre ++ post)) := by
  refine ⟨fanOut_eq_successfulPayloads rs, by simp, ?_⟩
  intro pre post r hfail
  have hr : successfulPayloads (pre ++ r :: post) = successfulPayloads (pre ++ post) := by
    cases r with
    | payload p => simp [callOpenRouter] at hfail
    | transportError => simp [successfulPayloads]
    | httpError s => simp [successfulPayloads]
    | parseFailure => simp [successfulPayloads]
  rw [fanOut_eq_successfulPayloads, fanOut_eq_successfulPayloads, hr]

/-- CLAIM C5 witness: with a transport failure dispatched between two
successful providers, the fan-out still returns exactly the two successes,
settles all three calls, and dropping the failing call changes nothing. -/
theorem fanOut_settles_all_returns_successes_witness :
    fanOut
        [ProviderResponse.payload ⟨[⟨"apple", 1, "g", 52, 14, 0, 0⟩], ⟨52, 14, 0, 0⟩⟩,
         ProviderResponse.transportError,
         ProviderResponse.payload ⟨[⟨"pear", 1, "g", 57, 15, 0, 0⟩], ⟨57, 15, 0, 0⟩⟩] =
      [⟨[⟨"apple", 1, "g", 52, 14, 0, 0⟩], ⟨52, 14, 0, 0⟩⟩,
       ⟨[⟨"pear", 1, "g", 57, 15, 0, 0⟩], ⟨57, 15, 0, 0⟩⟩] ∧
    fanOut
        [ProviderResponse.payload ⟨[⟨"apple", 1, "g", 52, 14, 0, 0⟩], ⟨52, 14, 0, 0⟩⟩,
         ProviderResponse.transportError,
         ProviderResponse.payload ⟨[⟨"pear", 1, "g", 57, 15, 0, 0⟩], ⟨57, 15, 0, 0⟩⟩] =
      fanOut
        [ProviderResponse.payload ⟨[⟨"apple", 1, "g", 52, 14, 0, 0⟩], ⟨52, 14, 0, 0⟩⟩,
         ProviderResponse.payload ⟨[⟨"pear", 1, "g", 57, 15, 0, 0⟩], ⟨57, 15, 0, 0⟩⟩] := by
  have h := fanOut_settles_all_returns_successes
    [ProviderResponse.payload ⟨[⟨"apple", 1, "g", 52, 14, 0, 0⟩], ⟨52, 14, 0, 0⟩⟩,
     ProviderResponse.transportError,
     ProviderResponse.payload ⟨[⟨"pear", 1, "g", 57, 15, 0, 0⟩], ⟨57, 15, 0, 0⟩⟩]
  constructor
  · exact h.1.trans (by rfl)
  · exact h.2.2
      [ProviderResponse.payload ⟨[⟨"apple", 1, "g", 52, 14, 0, 0⟩], ⟨52, 14, 0, 0⟩⟩]
      [ProviderResponse.payload ⟨[⟨"pear", 1, "g", 57, 15, 0, 0⟩], ⟨57, 15, 0, 0⟩⟩]
      ProviderResponse.transportError rfl

/-- CLAIM C8 counterexample. A response whose parsed payload contains an
empty item list is returned by `callOpenRouter` as a success (`some`), not
converted to the failure value `none`: the function performs no emptiness
check after `JSON.parse`. -/
theorem empty_item_payload_is_success :
    callOpenRouter (ProviderResponse.payload ⟨[], ⟨0, 0, 0, 0⟩⟩) =
      some ⟨[], ⟨0, 0, 0, 0⟩⟩ ∧
    (⟨[], ⟨0, 0, 0, 0⟩⟩ : SourceResult).items = [] := ⟨rfl, rfl⟩

/-- CLAIM C8 (amended). `callOpenRouter` converts transport errors, non-2xx
responses and non-parseable payloads to the failure value `none`; any
successfully parsed payload — including one with an empty item list — is
returned as a success contributing to the merge. -/
theorem callOpenRouter_failure_conditions (r : ProviderResponse) :
    (callOpenRouter r = none ↔
      r = ProviderResponse.transportError ∨
      (∃ s, r = ProviderResponse.httpError s) ∨
      r = ProviderResponse.parseFailure) ∧
    (∀ p : SourceResult, callOpenRouter (ProviderResponse.payload p) = some p) := by
  constructor
  · cases r <;> simp [callOpenRouter]
  · intro p
    rfl

/-- The aggregation stage of `foodAnalysisAction` (`food-analysis.js`
lines 100-160): filter the settled fan-out down to the valid results, throw
`'All AI providers failed'` when there are none, otherwise aggregate. The
action's `catch` turns the throw into a `success: false` return value,
modelled as `Except.error`. -/
def runAction (rs : List ProviderResponse) : Except String AggOutput :=
  let validResults := fanOut rs
  if validResults.length = 0 then Except.error "All AI providers failed"
  else Except.ok (aggregateResults validResults)

/-- Helper: folding source results whose item lists are all empty leaves the
item map unchanged. -/
theorem buildItemMap_go_empty_items (rs : List SourceResult)
    (h : ∀ r ∈ rs, r.items = ([] : List Item)) (m : List (String × Item)) :
    rs.foldl (fun m r => r.items.foldl insertItem m) m = m := by
  induction rs generalizing m with
  | nil => rfl
  | cons r t ih =>
    have hr : r.items = [] := h r (List.mem_cons_self r t)
    simp only [List.foldl_cons, hr, List.foldl_nil]
    exact ih (fun x hx => h x (List.mem_cons_of_mem r hx)) m

/-- CLAIM C2 counterexample. Two successful sources that both report zero
items produce a successful aggregation — `Except.ok` with an empty item
list, zero totals and `high` confidence — not a fatal aggregation failure:
`aggregateResults` never checks the merged item list for emptiness, and the
only throw in the aggregation stage is for zero successful providers. -/
theorem empty_merge_returns_success :
    runAction
        [ProviderResponse.payload ⟨[], ⟨0, 0, 0, 0⟩⟩,
         ProviderResponse.payload ⟨[], ⟨0, 0, 0, 0⟩⟩] =
      Except.ok ⟨[], ⟨0, 0, 0, 0⟩, some 2, some Confidence.high⟩ := by rfl

/-- CLAIM C2 (amended). The aggregation stage signals a fatal failure only
when zero providers succeed; whenever at least one provider succeeds and
every successful source reports zero items, it returns a successful result
whose item list is empty. Its totals are the zero record when two or more
sources merged (the sum over the empty merged list), while a single
successful source's reported totals pass through verbatim on the
single-result branch. -/
theorem aggregation_accepts_empty_merge (srcs : List SourceResult)
    (hne : srcs ≠ []) (hempty : ∀ r ∈ srcs, r.items = ([] : List Item)) :
    runAction (srcs.map ProviderResponse.payload) =
      Except.ok (aggregateResults srcs) ∧
    (aggregateResults srcs).items = [] ∧
    (2 ≤ srcs.length →
      (aggregateResults srcs).totalNutrition = ⟨0, 0, 0, 0⟩) ∧
    (∀ r : SourceResult, srcs = [r] →
      (aggregateResults srcs).totalNutrition = r.totalNutrition) := by
  have hfan : fanOut (srcs.map ProviderResponse.payload) = srcs := by
    rw [fanOut_eq_successfulPayloads (srcs.map ProviderResponse.payload)]
    clear hne hempty
    induction srcs with
    | nil => rfl
    | cons r t ih =>
      simp only [successfulPayloads, List.map_cons, List.filterMap_cons] at ih ⊢
      rw [ih]
  have hitems : (aggregateResults srcs).items = [] := by
    match srcs, hne with
    | [r], _ =>
      simpa [aggregateResults] using hempty r (by simp)
    | r1 :: r2 :: t, _ =>
      simp only [aggregateResults, buildItemMap]
      rw [buildItemMap_go_empty_items _ hempty]
      rfl
  have htot2 : 2 ≤ srcs.length →
      (aggregateResults srcs).totalNutrition = ⟨0, 0, 0, 0⟩ := by
    intro hlen
    match srcs, hlen with
    | r1 :: r2 :: t, _ =>
      simp only [aggregateResults, buildItemMap]
      rw [buildItemMap_go_empty_items _ hempty]
      rfl
  have htot1 : ∀ r : SourceResult, srcs = [r] →
      (aggregateResults srcs).totalNutrition = r.totalNutrition := by
    intro r hr
    subst hr
    rfl
  refine ⟨?_, hitems, htot2, htot1⟩
  unfold runAction
  rw [hfan]
  have : srcs.length ≠ 0 := by
    simpa using hne
  simp [this]

/-- CLAIM C2 (amended) witness: two successful empty sources yield
`Except.ok` of the empty aggregation with zero totals (their reported
per-source totals are discarded by the merge); one successful empty source
yields `Except.ok` of its own payload, its reported totals `⟨500, 1, 2, 3⟩`
passed through verbatim. -/
theorem aggregation_accepts_empty_merge_witness :
    (runAction
        [ProviderResponse.payload ⟨[], ⟨1, 2, 3, 4⟩⟩,
         ProviderResponse.payload ⟨[], ⟨5, 6, 7, 8⟩⟩] =
      Except.ok (aggregateResults [⟨[], ⟨1, 2, 3, 4⟩⟩, ⟨[], ⟨5, 6, 7, 8⟩⟩]) ∧
    (aggregateResults [⟨[], ⟨1, 2, 3, 4⟩⟩, ⟨[], ⟨5, 6, 7, 8⟩⟩]).items = [] ∧
    (aggregateResults
        [⟨[], ⟨1, 2, 3, 4⟩⟩, ⟨[], ⟨5, 6, 7, 8⟩⟩]).totalNutrition = ⟨0, 0, 0, 0⟩) ∧
    (runAction [ProviderResponse.payload ⟨[], ⟨500, 1, 2, 3⟩⟩] =
      Except.ok (aggregateResults [⟨[], ⟨500, 1, 2, 3⟩⟩]) ∧
    (aggregateResults [⟨[], ⟨500, 1, 2, 3⟩⟩]).items = [] ∧
    (aggregateResults [⟨[], ⟨500, 1, 2, 3⟩⟩]).totalNutrition = ⟨500, 1, 2, 3⟩) := by
  have h2 := aggregation_accepts_empty_merge [⟨[], ⟨1, 2, 3, 4⟩⟩, ⟨[], ⟨5, 6, 7, 8⟩⟩]
    (by simp) (by simp)
  have h1 := aggregation_accepts_empty_merge [⟨[], ⟨500, 1, 2, 3⟩⟩]
    (by simp) (by simp)
  exact ⟨⟨h2.1, h2.2.1, h2.2.2.1 (by simp)⟩,
    ⟨h1.1, h1.2.1, h1.2.2.2 ⟨[], ⟨500, 1, 2, 3⟩⟩ rfl⟩⟩

/-- Helper: the `reduce` of `food-analysis.js` lines 145-150 computes the
fieldwise sum of the item measures, generalized over the accumulator. -/
theorem sumTotals_go (l : List Item) (acc : Totals) :
    l.foldl
        (fun acc it =>
          { calories := acc.calories + it.calories
            carbs := acc.carbs + it.carbs
            fats := acc.fats + it.fats
            proteins := acc.proteins + it.proteins })
        acc =
      { calories := acc.calories + (l.map Item.calories).sum
        carbs := acc.carbs + (l.map Item.carbs).sum
        fats := acc.fats + (l.map Item.fats).sum
        proteins := acc.proteins + (l.map Item.proteins).sum } := by
  induction l generalizing acc with
  | nil => simp
  | cons it t ih => simp [ih, add_assoc]

/-- Helper: `sumTotals` is exactly the fieldwise sum of the item measures. -/
theorem sumTotals_eq_fieldwise_sums (l : List Item) :
    sumTotals l =
      { calories := (l.map Item.calories).sum
        carbs := (l.map Item.carbs).sum
        fats := (l.map Item.fats).sum
        proteins := (l.map Item.proteins).sum } := by
  unfold sumTotals
  rw [sumTotals_go]
  simp

/-- CLAIM C7. For every multi-source aggregation (two or more successful
lists), the totals of the result are the exact fieldwise sum of the merged
item list's measures — recomputed from the merged items, never themselves
averaged — and the confidence grade is `high` (two or more providers
contributed). -/
theorem multi_source_totals_recomputed (rs : List SourceResult) (h : 2 ≤ rs.length) :
    (aggregateResults rs).confidence = some Confidence.high ∧
    (aggregateResults rs).totalNutrition =
      { calories := ((aggregateResults rs).items.map Item.calories).sum
        carbs := ((aggregateResults rs).items.map Item.carbs).sum
        fats := ((aggregateResults rs).items.map Item.fats).sum
        proteins := ((aggregateResults rs).items.map Item.proteins).sum } := by
  rcases rs with _ | ⟨r1, _ | ⟨r2, t⟩⟩
  · simp at h
  · simp at h
  · constructor
    · have h2 : 2 ≤ (r1 :: r2 :: t).length := by simp
      simp [aggregateResults, h2]
    · simp [aggregateResults, sumTotals_eq_fieldwise_sums]

/-- CLAIM C7 witness: aggregating two one-item sources with distinct keys
keeps both items, grades confidence `high`, and recomputes the totals as the
exact sum of the merged items' measures (the per-source `totalNutrition`
records, deliberately inconsistent here, are ignored). -/
theorem multi_source_totals_recomputed_witness :
    (aggregateResults
        [⟨[⟨"apple", 1, "g", 52, 14, 1, 2⟩], ⟨999, 999, 999, 999⟩⟩,
         ⟨[⟨"pear", 1, "g", 57, 15, 3, 4⟩], ⟨0, 0, 0, 0⟩⟩]).confidence =
      some Confidence.high ∧
    (aggregateResults
        [⟨[⟨"apple", 1, "g", 52, 14, 1, 2⟩], ⟨999, 999, 999, 999⟩⟩,
         ⟨[⟨"pear", 1, "g", 57, 15, 3, 4⟩], ⟨0, 0, 0, 0⟩⟩]).totalNutrition =
      ⟨109, 29, 4, 6⟩ := by
  have h := multi_source_totals_recomputed
    [⟨[⟨"apple", 1, "g", 52, 14, 1, 2⟩], ⟨999, 999, 999, 999⟩⟩,
     ⟨[⟨"pear", 1, "g", 57, 15, 3, 4⟩], ⟨0, 0, 0, 0⟩⟩] (by simp)
  have e : (aggregateResults
      [⟨[⟨"apple", 1, "g", 52, 14, 1, 2⟩], ⟨999, 999, 999, 999⟩⟩,
       ⟨[⟨"pear", 1, "g", 57, 15, 3, 4⟩], ⟨0, 0, 0, 0⟩⟩]).items =
      [⟨"apple", 1, "g", 52, 14, 1, 2⟩, ⟨"pear", 1, "g", 57, 15, 3, 4⟩] := by decide
  refine ⟨h.1, h.2.trans ?_⟩
  rw [e]
  norm_num [Totals.mk.injEq]

/-- State of `DecentralizedAIService` (`decentralized-ai-service.ts` line 17):
the private `wallet` field, `null` until `initialize` completes. The wallet
object itself is abstracted to its key material. -/
structure ServiceState where
  wallet : Option String
deriving DecidableEq

/-- `initialize` (`decentralized-ai-service.ts` lines 23-33): connect, then
set the wallet from the provided private key, or to a freshly generated
session wallet when no key is given. Either way the wallet is non-null
afterwards. `freshWallet` stands for the randomly generated wallet. -/
def initializeService (privateKey : Option String) (freshWallet : String)
    (_s : ServiceState) : ServiceState :=
  { wallet := some (privateKey.getD freshWallet) }

/-- `disconnect` (`decentralized-ai-service.ts` lines 86-89): resets the
wallet to `null`. -/
def disconnectService (_s : ServiceState) : ServiceState :=
  { wallet := none }

/-- The `DecentralizedAnalysisResult` delivered to the caller
(`decentralized-ai-service.ts` lines 5-13). The per-item generated `id` and
the wall-clock `timestamp` are nondeterministic environment reads and are
not modelled; the item fields listed in the transform (name, quantity, unit,
calories, carbs, fats, proteins) are copied verbatim, so `items` keeps the
`Item` shape. -/
structure AnalysisResult where
  items : List Item
  totalNutrition : Totals
  providersUsed : ℕ
  confidence : Confidence
  network : String
deriving DecidableEq

/-- JS `||` default on a numeric field (`result.data.providersUsed || 1`):
an absent field or the falsy value `0` falls back to the default. -/
def jsOrNat (v : Option ℕ) (d : ℕ) : ℕ :=
  match v with
  | some n => if n = 0 then d else n
  | none => d

/-- The result transform of `analyzeFood` (`decentralized-ai-service.ts`
lines 59-76): items and totals are copied through, `providersUsed` defaults
to `1` and `confidence` to `medium` when the aggregated payload carries no
such field (the single-source pass-through), and `network` comes from the
action's return value, always `'lit-protocol'`. -/
def transformAnalysis (o : AggOutput) : AnalysisResult :=
  { items := o.items
    totalNutrition := o.totalNutrition
    providersUsed := jsOrNat o.providersUsed 1
    confidence := o.confidence.getD Confidence.medium
    network := "lit-protocol" }

/-- `analyzeFood` (`decentralized-ai-service.ts` lines 35-84): throws
`'Service not initialized. Call initialize() first.'` before doing anything
when the wallet is `null`; otherwise runs the Lit action and transforms its
result, wrapping any failure as `'Failed to analyze food: ...'`. The second
component counts provider calls dispatched: `0` on the uninitialized path,
one per configured provider otherwise. -/
def analyzeFood (s : ServiceState) (rs : List ProviderResponse) :
    Except String AnalysisResult × ℕ :=
  match s.wallet with
  | none => (Except.error "Service not initialized. Call initialize() first.", 0)
  | some _ =>
    match runAction rs with
    | Except.error e => (Except.error ("Failed to analyze food: " ++ e), rs.length)
    | Except.ok data => (Except.ok (transformAnalysis data), rs.length)

/-- `analyzeFoodFallback` (`decentralized-ai-service.ts` lines 96-184): one
direct centralized call through the same fetch/parse pipeline as
`callOpenRouter`; on success the result carries `providersUsed = 1`,
`confidence = 'low'` and `network = 'centralized-fallback'`; any throw is
rethrown as `'Fallback analysis failed: ...'` (the runtime-dependent cause
text is elided). -/
def analyzeFoodFallback (resp : ProviderResponse) : Except String AnalysisResult :=
  match resp with
  | ProviderResponse.payload p =>
    Except.ok
      { items := p.items
        totalNutrition := p.totalNutrition
        providersUsed := 1
        confidence := Confidence.low
        network := "centralized-fallback" }
  | _ => Except.error "Fallback analysis failed"

/-- The caller flow of `AddMeal.analyzeImage` (`AddMeal.tsx` lines 84-107):
try the decentralized `analyzeFood`; if it throws, make exactly one
`analyzeFoodFallback` call; a failure of that call propagates to the outer
catch with no further attempt. The second component counts fallback calls
made. -/
def analyzeImage (s : ServiceState) (primary : List ProviderResponse)
    (fallbackResp : ProviderResponse) : Except String AnalysisResult × ℕ :=
  match (analyzeFood s primary).1 with
  | Except.ok r => (Except.ok r, 0)
  | Except.error _ => (analyzeFoodFallback fallbackResp, 1)

/-- One public operation on the `DecentralizedAIService` instance. The class
exposes `initialize`, `analyzeFood`, `analyzeFoodFallback`,
`getWalletAddress` and `disconnect`; only `initialize` and `disconnect`
assign to `this.wallet`, so the state transition of every other operation is
the identity on the wallet field. -/
inductive ServiceOp where
  | opInitialize (privateKey : Option String) (freshWallet : String)
  | opAnalyzeFood (rs : List ProviderResponse)
  | opAnalyzeFoodFallback (resp : ProviderResponse)
  | opGetWalletAddress
  | opDisconnect
deriving DecidableEq

/-- State transition of one service operation on the wallet field. -/
def stepService (s : ServiceState) : ServiceOp → ServiceState
  | ServiceOp.opInitialize pk w => initializeService pk w s
  | ServiceOp.opAnalyzeFood _ => s
  | ServiceOp.opAnalyzeFoodFallback _ => s
  | ServiceOp.opGetWalletAddress => s
  | ServiceOp.opDisconnect => disconnectService s

/-- CLAIM C10. Calling `analyzeFood` while the wallet is `null` fails
immediately with the `'Service not initialized'` error and dispatches no
provider call; `initialize` always leaves the wallet non-null; once the
wallet is non-null, every service operation other than `disconnect` keeps it
non-null; and `disconnect` resets it to `null`. -/
theorem analyzeFood_requires_initialization :
    (∀ (s : ServiceState) (rs : List ProviderResponse), s.wallet = none →
      analyzeFood s rs =
        (Except.error "Service not initialized. Call initialize() first.", 0)) ∧
    (∀ (pk : Option String) (w : String) (s : ServiceState),
      ((initializeService pk w s).wallet).isSome) ∧
    (∀ (s : ServiceState) (op : ServiceOp), (s.wallet).isSome →
      op ≠ ServiceOp.opDisconnect → ((stepService s op).wallet).isSome) ∧
    (∀ s : ServiceState, (disconnectService s).wallet = none) := by
  refine ⟨?_, ?_, ?_, ?_⟩
  · intro s rs h
    simp [analyzeFood, h]
  · intro pk w s
    simp [initializeService]
  · intro s op hs hop
    cases op with
    | opInitialize pk w => simp [stepService, initializeService]
    | opAnalyzeFood rs => exact hs
    | opAnalyzeFoodFallback resp => exact hs
    | opGetWalletAddress => exact hs
    | opDisconnect => exact absurd rfl hop
  · intro s
    rfl

/-- CLAIM C10 witness: on the fresh (uninitialized) state, `analyzeFood`
fails with the initialization error and dispatches zero provider calls, even
with three providers configured; initializing the fresh state yields a
non-null wallet; an `analyzeFood` operation preserves the non-null wallet;
and `disconnect` nulls it. -/
theorem analyzeFood_requires_initialization_witness :
    analyzeFood ⟨none⟩
        [ProviderResponse.transportError, ProviderResponse.parseFailure,
         ProviderResponse.httpError 500] =
      (Except.error "Service not initialized. Call initialize() first.", 0) ∧
    ((initializeService none "sessionKey" ⟨none⟩).wallet).isSome ∧
    ((stepService ⟨some "sessionKey"⟩ (ServiceOp.opAnalyzeFood [])).wallet).isSome ∧
    (disconnectService ⟨some "sessionKey"⟩).wallet = none := by
  have h := analyzeFood_requires_initialization
  exact ⟨h.1 ⟨none⟩ _ rfl, h.2.1 none "sessionKey" ⟨none⟩,
    h.2.2.1 ⟨some "sessionKey"⟩ (ServiceOp.opAnalyzeFood []) rfl (by simp),
    h.2.2.2 ⟨some "sessionKey"⟩⟩

/-- CLAIM C6. When exactly one provider succeeds, the caller receives that
single source payload passed through unchanged — the delivered items and
totals are exactly the provider's reported items and totals — with
`providersUsed = 1`, `confidence = medium` (both supplied as defaults by the
service transform, since the pass-through payload carries neither field) and
the multi-provider network tag `'lit-protocol'`. -/
theorem single_success_passthrough (s : ServiceState) (w : String)
    (rs : List ProviderResponse) (r : SourceResult)
    (hw : s.wallet = some w) (hf : fanOut rs = [r]) :
    analyzeFood s rs =
      (Except.ok
        { items := r.items
          totalNutrition := r.totalNutrition
          providersUsed := 1
          confidence := Confidence.medium
          network := "lit-protocol" }, rs.length) := by
  simp [analyzeFood, hw, runAction, hf, aggregateResults, transformAnalysis, jsOrNat]

/-- CLAIM C6 witness: the spec's partial-failure scenario — three dispatched
providers, one transport failure, one malformed payload, one success — ends
in success with the single provider's items and totals unchanged,
`providersUsed = 1`, `confidence = medium`, on the `'lit-protocol'` path. -/
theorem single_success_passthrough_witness :
    analyzeFood ⟨some "sessionKey"⟩
        [ProviderResponse.transportError,
         ProviderResponse.parseFailure,
         ProviderResponse.payload ⟨[⟨"apple", 1, "g", 52, 14, 1, 2⟩], ⟨52, 14, 1, 2⟩⟩] =
      (Except.ok
        { items := [⟨"apple", 1, "g", 52, 14, 1, 2⟩]
          totalNutrition := ⟨52, 14, 1, 2⟩
          providersUsed := 1
          confidence := Confidence.medium
          network := "lit-protocol" }, 3) :=
  single_success_passthrough ⟨some "sessionKey"⟩ "sessionKey"
    [ProviderResponse.transportError,
     ProviderResponse.parseFailure,
     ProviderResponse.payload ⟨[⟨"apple", 1, "g", 52, 14, 1, 2⟩], ⟨52, 14, 1, 2⟩⟩]
    ⟨[⟨"apple", 1, "g", 52, 14, 1, 2⟩], ⟨52, 14, 1, 2⟩⟩ rfl (by decide)

/-- CLAIM C4. When the initialized multi-provider attempt yields zero
successes and the single centralized fallback call succeeds, the caller flow
returns success with the fallback execution-mode tag
`'centralized-fallback'`, `confidence = low` and `providersUsed = 1`, and
exactly one fallback call is made — there is no further retry. -/
theorem zero_success_single_fallback (s : ServiceState) (w : String)
    (primary : List ProviderResponse) (fb : SourceResult)
    (hw : s.wallet = some w) (hzero : fanOut primary = []) :
    analyzeImage s primary (ProviderResponse.payload fb) =
      (Except.ok
        { items := fb.items
          totalNutrition := fb.totalNutrition
          providersUsed := 1
          confidence := Confidence.low
          network := "centralized-fallback" }, 1) := by
  simp [analyzeImage, analyzeFood, hw, runAction, hzero, analyzeFoodFallback]

/-- CLAIM C4 witness: all three dispatched providers fail, the fallback
payload parses — the flow ends in success with `confidence = low`,
`providersUsed = 1`, network `'centralized-fallback'`, after exactly one
fallback call. -/
theorem zero_success_single_fallback_witness :
    analyzeImage ⟨some "sessionKey"⟩
        [ProviderResponse.transportError, ProviderResponse.httpError 500,
         ProviderResponse.parseFailure]
        (ProviderResponse.payload ⟨[⟨"toast", 2, "slice", 160, 30, 2, 6⟩], ⟨160, 30, 2, 6⟩⟩) =
      (Except.ok
        { items := [⟨"toast", 2, "slice", 160, 30, 2, 6⟩]
          totalNutrition := ⟨160, 30, 2, 6⟩
          providersUsed := 1
          confidence := Confidence.low
          network := "centralized-fallback" }, 1) :=
  zero_success_single_fallback ⟨some "sessionKey"⟩ "sessionKey"
    [ProviderResponse.transportError, ProviderResponse.httpError 500,
     ProviderResponse.parseFailure]
    ⟨[⟨"toast", 2, "slice", 160, 30, 2, 6⟩], ⟨160, 30, 2, 6⟩⟩ rfl (by decide)

/-- CLAIM C1 counterexample. Three successful providers report the same item
`"rice"` with calories 0, 0 and 10; aggregating in the order `[0, 0, 10]`
gives total calories `round((round((0+0)/2) + 10)/2) = 5`, while the
permuted order `[10, 0, 0]` gives `round((round((10+0)/2) + 0)/2) =
round(2.5) = 3`: the final totals are not identical under permutation of the
provider lists. -/
theorem totals_not_permutation_invariant :
    (aggregateResults
        [⟨[⟨"rice", 0, "g", 0, 0, 0, 0⟩], ⟨0, 0, 0, 0⟩⟩,
         ⟨[⟨"rice", 0, "g", 0, 0, 0, 0⟩], ⟨0, 0, 0, 0⟩⟩,
         ⟨[⟨"rice", 0, "g", 10, 0, 0, 0⟩], ⟨10, 0, 0, 0⟩⟩]).totalNutrition ≠
    (aggregateResults
        [⟨[⟨"rice", 0, "g", 10, 0, 0, 0⟩], ⟨10, 0, 0, 0⟩⟩,
         ⟨[⟨"rice", 0, "g", 0, 0, 0, 0⟩], ⟨0, 0, 0, 0⟩⟩,
         ⟨[⟨"rice", 0, "g", 0, 0, 0, 0⟩], ⟨0, 0, 0, 0⟩⟩]).totalNutrition := by
  norm_num [aggregateResults, buildItemMap, insertItem, keyOf, mergeItem, sumTotals,
    jsRound, Totals.mk.injEq]

/-- Keys of the item map, in insertion order. -/
def mapKeys (m : List (String × Item)) : List String := m.map Prod.fst

/-- Lookup in the item map (`itemMap.get(key)` on the first — and, with
unique keys, only — entry for the key). -/
def lookupKey : List (String × Item) → String → Option Item
  | [], _ => none
  | (k, v) :: rest, q => if k = q then some v else lookupKey rest q

/-- The running pairwise merge restricted to one key: folding a list of
items over an optional accumulator exactly as the entry for key `q` evolves
while the merge loop runs. -/
def mergeFold (q : String) (o : Option Item) (L : List Item) : Option Item :=
  L.foldl
    (fun acc it =>
      if keyOf it = q then
        some
          (match acc with
           | some e => mergeItem e it
           | none => it)
      else acc)
    o

/-- The first item of a list whose normalized key is `q`. -/
def findKey (q : String) (L : List Item) : Option Item :=
  L.find? fun it => keyOf it = q

/-- The numeric measures of an item that enter the totals sum. -/
def measuresOf (it : Item) : ℚ × ℚ × ℚ × ℚ :=
  (it.calories, it.carbs, it.fats, it.proteins)

/-- Helper: how one merge-loop step changes the entry stored under key `q`. -/
theorem lookupKey_insertItem (m : List (String × Item)) (it : Item) (q : String) :
    lookupKey (insertItem m it) q =
      if keyOf it = q then
        some
          (match lookupKey m q with
           | some e => mergeItem e it
           | none => it)
      else lookupKey m q := by
  induction m with
  | nil =>
    by_cases h : keyOf it = q <;> simp [insertItem, lookupKey, h]
  | cons p rest ih =>
    obtain ⟨k, v⟩ := p
    simp only [insertItem]
    by_cases hk : k = keyOf it
    · by_cases hq : k = q
      · have h2 : keyOf it = q := hk ▸ hq
        simp [lookupKey, hq, h2, hk]
      · have h2 : keyOf it ≠ q := fun h => hq (hk.trans h)
        simp [lookupKey, hk, hq, h2]
    · by_cases hq : k = q
      · have h2 : keyOf it ≠ q := fun h => hk (hq.trans h.symm)
        have h3 : ¬q = keyOf it := fun h => hk (hq.trans h)
        simp [lookupKey, hq, h2, h3]
      · simp [lookupKey, hk, hq, ih]

/-- Helper: the entry stored under key `q` after folding a whole item list is
the `mergeFold` of the previous entry over that list. -/
theorem lookupKey_foldl_insertItem (L : List Item) (m : List (String × Item)) (q : String) :
    lookupKey (L.foldl insertItem m) q = mergeFold q (lookupKey m q) L := by
  induction L generalizing m with
  | nil => rfl
  | cons it t ih =>
    simp only [List.foldl_cons, mergeFold, ih, lookupKey_insertItem]

/-- Helper: inserting an item adds (at most) its own key to the map keys. -/
theorem mem_mapKeys_insertItem (m : List (String × Item)) (it : Item) (q : String) :
    q ∈ mapKeys (insertItem m it) ↔ q ∈ mapKeys m ∨ q = keyOf it := by
  induction m with
  | nil => simp [insertItem, mapKeys, eq_comm]
  | cons p rest ih =>
    obtain ⟨k, v⟩ := p
    simp only [insertItem]
    by_cases hk : k = keyOf it
    · subst hk
      simp [mapKeys]
      tauto
    · simp only [if_neg hk, mapKeys, List.map_cons, List.mem_cons] at ih ⊢
      rw [ih]
      tauto

/-- Helper: the merge loop never breaks key uniqueness of the item map. -/
theorem nodup_mapKeys_insertItem (m : List (String × Item)) (it : Item)
    (h : (mapKeys m).Nodup) : (mapKeys (insertItem m it)).Nodup := by
  induction m with
  | nil => simp [insertItem, mapKeys]
  | cons p rest ih =>
    obtain ⟨k, v⟩ := p
    simp only [mapKeys, List.map_cons, List.nodup_cons] at h
    simp only [insertItem]
    by_cases hk : k = keyOf it
    · simp only [if_pos hk, mapKeys, List.map_cons, List.nodup_cons]
      exact ⟨h.1, h.2⟩
    · simp only [if_neg hk, mapKeys, List.map_cons, List.nodup_cons]
      refine ⟨?_, ih h.2⟩
      intro hmem
      rcases (mem_mapKeys_insertItem rest it k).mp hmem with h1 | h2
      · exact h.1 h1
      · exact hk h2

/-- Helper: key uniqueness is preserved across a whole item-list fold. -/
theorem nodup_mapKeys_foldl (L : List Item) (m : List (String × Item))
    (h : (mapKeys m).Nodup) : (mapKeys (L.foldl insertItem m)).Nodup := by
  induction L generalizing m with
  | nil => exact h
  | cons it t ih =>
    simp only [List.foldl_cons]
    exact ih _ (nodup_mapKeys_insertItem m it h)

/-- Helper: items whose key is not `q` leave the `q`-entry untouched. -/
theorem mergeFold_of_no_key (q : String) (o : Option Item) (L : List Item)
    (h : ∀ it ∈ L, keyOf it ≠ q) : mergeFold q o L = o := by
  induction L generalizing o with
  | nil => rfl
  | cons it t ih =>
    have h1 : keyOf it ≠ q := h it (List.mem_cons_self it t)
    simp only [mergeFold, List.foldl_cons, if_neg h1]
    exact ih o fun x hx => h x (List.mem_cons_of_mem it hx)

/-- Helper: over a list with pairwise-distinct keys, the `q`-entry built from
nothing is the unique item of that key, if any. -/
theorem mergeFold_none_of_nodup (q : String) (L : List Item)
    (h : (L.map keyOf).Nodup) : mergeFold q none L = findKey q L := by
  induction L with
  | nil => rfl
  | cons it t ih =>
    simp only [List.map_cons, List.nodup_cons] at h
    by_cases hq : keyOf it = q
    · have hrest : ∀ x ∈ t, keyOf x ≠ q := by
        intro x hx hcontra
        exact h.1 (hq ▸ hcontra ▸ List.mem_map_of_mem keyOf hx)
      simp only [mergeFold, List.foldl_cons, if_pos hq]
      rw [show (t.foldl
          (fun acc it =>
            if keyOf it = q then
              some
                (match acc with
                 | some e => mergeItem e it
                 | none => it)
            else acc) (some it)) = mergeFold q (some it) t from rfl]
      rw [mergeFold_of_no_key q (some it) t hrest]
      simp [findKey, List.find?_cons, hq]
    · simp only [mergeFold, List.foldl_cons, if_neg hq]
      rw [show (t.foldl
          (fun acc it =>
            if keyOf it = q then
              some
                (match acc with
                 | some e => mergeItem e it
                 | none => it)
            else acc) none) = mergeFold q none t from rfl]
      rw [ih h.2]
      simp [findKey, List.find?_cons, hq]

/-- Helper: over a list with pairwise-distinct keys, an existing `q`-entry is
merged with the unique item of that key, if any. -/
theorem mergeFold_some_of_nodup (q : String) (e : Item) (L : List Item)
    (h : (L.map keyOf).Nodup) :
    mergeFold q (some e) L =
      match findKey q L with
      | some b => some (mergeItem e b)
      | none => some e := by
  induction L with
  | nil => rfl
  | cons it t ih =>
    simp only [List.map_cons, List.nodup_cons] at h
    by_cases hq : keyOf it = q
    · have hrest : ∀ x ∈ t, keyOf x ≠ q := by
        intro x hx hcontra
        exact h.1 (hq ▸ hcontra ▸ List.mem_map_of_mem keyOf hx)
      simp only [mergeFold, List.foldl_cons, if_pos hq]
      rw [show (t.foldl
          (fun acc it =>
            if keyOf it = q then
              some
                (match acc with
                 | some e => mergeItem e it
                 | none => it)
            else acc) (some (mergeItem e it))) = mergeFold q (some (mergeItem e it)) t from rfl]
      rw [mergeFold_of_no_key q _ t hrest]
      simp [findKey, List.find?_cons, hq]
    · simp only [mergeFold, List.foldl_cons, if_neg hq]
      rw [show (t.foldl
          (fun acc it =>
            if keyOf it = q then
              some
                (match acc with
                 | some e => mergeItem e it
                 | none => it)
            else acc) (some e)) = mergeFold q (some e) t from rfl]
      rw [ih h.2]
      simp [findKey, List.find?_cons, hq]

/-- Helper: for two source lists each free of internal duplicate keys, the
final entry under key `q` is determined by the (unique) `q`-items of the two
lists: one of them alone, or the pairwise merge first-then-second. -/
theorem lookupKey_buildItemMap_pair (r1 r2 : SourceResult) (q : String)
    (h1 : ((r1.items).map keyOf).Nodup) (h2 : ((r2.items).map keyOf).Nodup) :
    lookupKey (buildItemMap [r1, r2]) q =
      match findKey q r1.items, findKey q r2.items with
      | some a, some b => some (mergeItem a b)
      | some a, none => some a
      | none, some b => some b
      | none, none => none := by
  have hsplit : buildItemMap [r1, r2] =
      (r2.items).foldl insertItem ((r1.items).foldl insertItem []) := by
    simp [buildItemMap]
  rw [hsplit, lookupKey_foldl_insertItem, lookupKey_foldl_insertItem]
  show mergeFold q (mergeFold q none r1.items) r2.items = _
  rw [mergeFold_none_of_nodup q r1.items h1]
  cases hA : findKey q r1.items with
  | none =>
    rw [mergeFold_none_of_nodup q r2.items h2]
    cases findKey q r2.items <;> rfl
  | some a =>
    rw [mergeFold_some_of_nodup q a r2.items h2]
    cases findKey q r2.items <;> rfl

/-- Helper: the numeric measures of a pairwise merge do not depend on which
of the two items arrived first (only `name` and `unit` do). -/
theorem measuresOf_mergeItem_comm (a b : Item) :
    measuresOf (mergeItem a b) = measuresOf (mergeItem b a) := by
  simp only [measuresOf, mergeItem, Prod.mk.injEq]
  refine ⟨?_, ?_, ?_, ?_⟩ <;> rw [add_comm]

/-- Helper: in a map with pairwise-distinct keys, membership of an entry is
the same as being the lookup result of its key. -/
theorem mem_iff_lookupKey (m : List (String × Item)) (q : String) (v : Item)
    (h : (mapKeys m).Nodup) : (q, v) ∈ m ↔ lookupKey m q = some v := by
  induction m with
  | nil => simp [lookupKey]
  | cons p rest ih =>
    obtain ⟨k, w⟩ := p
    simp only [mapKeys, List.map_cons, List.nodup_cons] at h
    by_cases hk : k = q
    · subst hk
      simp only [lookupKey, List.mem_cons, Prod.mk.injEq, true_and, if_pos]
      constructor
      · rintro (he | hm)
        · simp [he]
        · exact absurd (List.mem_map_of_mem Prod.fst hm) h.1
      · intro he
        left
        simpa using he.symm
    · have hk2 : ¬k = q := hk
      simp only [lookupKey, if_neg hk2, List.mem_cons, Prod.mk.injEq]
      rw [← ih h.2]
      constructor
      · rintro (⟨he, _⟩ | hm)
        · exact absurd he.symm hk
        · exact hm
      · intro hm
        right
        exact hm

/-- Key together with the numeric measures of a map entry — the data the
totals sum depends on. -/
def pairMeasures (p : String × Item) : String × (ℚ × ℚ × ℚ × ℚ) :=
  (p.1, measuresOf p.2)

/-- Helper: key uniqueness of a two-source item map. -/
theorem nodup_mapKeys_pair (r1 r2 : SourceResult) :
    (mapKeys (buildItemMap [r1, r2])).Nodup := by
  have hsplit : buildItemMap [r1, r2] =
      (r2.items).foldl insertItem ((r1.items).foldl insertItem []) := by
    simp [buildItemMap]
  rw [hsplit]
  exact nodup_mapKeys_foldl _ _ (nodup_mapKeys_foldl _ _ (by simp [mapKeys]))

/-- Helper: membership in the measure projection of a key-unique map is
lookup followed by measure projection. -/
theorem mem_pairMeasures_iff (M : List (String × Item)) (hM : (mapKeys M).Nodup)
    (q : String) (meas : ℚ × ℚ × ℚ × ℚ) :
    (q, meas) ∈ M.map pairMeasures ↔
      Option.map measuresOf (lookupKey M q) = some meas := by
  simp only [List.mem_map]
  constructor
  · rintro ⟨⟨k, v⟩, hmem, heq⟩
    have hkq : k = q ∧ measuresOf v = meas := by
      simpa [pairMeasures] using heq
    rw [← hkq.1, (mem_iff_lookupKey M k v hM).mp hmem]
    simp [hkq.2]
  · intro h
    obtain ⟨v, hv, hmeas⟩ := Option.map_eq_some'.mp h
    exact ⟨(q, v), (mem_iff_lookupKey M q v hM).mpr hv, by simp [pairMeasures, hmeas]⟩

/-- CLAIM C1 (amended). For two successful provider item lists, each free of
internal duplicate normalized keys, the aggregated totals are identical
under swapping the two lists — the pairwise merge is symmetric in its
numeric fields — even though the merged items' `name`/`unit` fields and
their order may differ. (With three or more providers reporting the same
item, or duplicate keys inside one list, the running pairwise average makes
the totals order-sensitive, as the counterexample shows.) -/
theorem totals_swap_invariant_two_sources (r1 r2 : SourceResult)
    (h1 : ((r1.items).map keyOf).Nodup) (h2 : ((r2.items).map keyOf).Nodup) :
    (aggregateResults [r1, r2]).totalNutrition =
      (aggregateResults [r2, r1]).totalNutrition := by
  have n1 : (mapKeys (buildItemMap [r1, r2])).Nodup := nodup_mapKeys_pair r1 r2
  have n2 : (mapKeys (buildItemMap [r2, r1])).Nodup := nodup_mapKeys_pair r2 r1
  have hlook : ∀ q,
      Option.map measuresOf (lookupKey (buildItemMap [r1, r2]) q) =
        Option.map measuresOf (lookupKey (buildItemMap [r2, r1]) q) := by
    intro q
    rw [lookupKey_buildItemMap_pair r1 r2 q h1 h2,
      lookupKey_buildItemMap_pair r2 r1 q h2 h1]
    cases hA : findKey q r1.items <;> cases hB : findKey q r2.items <;>
      simp [measuresOf_mergeItem_comm]
  have keysfst : ∀ M : List (String × Item),
      (M.map pairMeasures).map Prod.fst = mapKeys M := by
    intro M
    simp only [List.map_map]
    rfl
  have np1 : ((buildItemMap [r1, r2]).map pairMeasures).Nodup :=
    List.Nodup.of_map Prod.fst (by rw [keysfst]; exact n1)
  have np2 : ((buildItemMap [r2, r1]).map pairMeasures).Nodup :=
    List.Nodup.of_map Prod.fst (by rw [keysfst]; exact n2)
  have perm : ((buildItemMap [r1, r2]).map pairMeasures).Perm
      ((buildItemMap [r2, r1]).map pairMeasures) := by
    rw [List.perm_ext_iff_of_nodup np1 np2]
    rintro ⟨q, meas⟩
    rw [mem_pairMeasures_iff _ n1, mem_pairMeasures_iff _ n2, hlook]
  have hsum : ∀ f : String × (ℚ × ℚ × ℚ × ℚ) → ℚ,
      (((buildItemMap [r1, r2]).map pairMeasures).map f).sum =
        (((buildItemMap [r2, r1]).map pairMeasures).map f).sum :=
    fun f => (perm.map f).sum_eq
  have proj : ∀ (M : List (String × Item)) (g : Item → ℚ)
      (f : String × (ℚ × ℚ × ℚ × ℚ) → ℚ),
      (∀ p : String × Item, f (pairMeasures p) = g p.2) →
      (M.map Prod.snd).map g = (M.map pairMeasures).map f := by
    intro M g f hfg
    simp only [List.map_map]
    exact List.map_congr_left fun p _ => (hfg p).symm
  have e1 : (aggregateResults [r1, r2]).totalNutrition =
      sumTotals ((buildItemMap [r1, r2]).map Prod.snd) := by
    simp [aggregateResults]
  have e2 : (aggregateResults [r2, r1]).totalNutrition =
      sumTotals ((buildItemMap [r2, r1]).map Prod.snd) := by
    simp [aggregateResults]
  rw [e1, e2, sumTotals_eq_fieldwise_sums, sumTotals_eq_fieldwise_sums]
  have c1 := proj (buildItemMap [r1, r2]) Item.calories (fun x => x.2.1) fun p => rfl
  have c2 := proj (buildItemMap [r2, r1]) Item.calories (fun x => x.2.1) fun p => rfl
  have b1 := proj (buildItemMap [r1, r2]) Item.carbs (fun x => x.2.2.1) fun p => rfl
  have b2 := proj (buildItemMap [r2, r1]) Item.carbs (fun x => x.2.2.1) fun p => rfl
  have f1 := proj (buildItemMap [r1, r2]) Item.fats (fun x => x.2.2.2.1) fun p => rfl
  have f2 := proj (buildItemMap [r2, r1]) Item.fats (fun x => x.2.2.2.1) fun p => rfl
  have p1 := proj (buildItemMap [r1, r2]) Item.proteins (fun x => x.2.2.2.2) fun p => rfl
  have p2 := proj (buildItemMap [r2, r1]) Item.proteins (fun x => x.2.2.2.2) fun p => rfl
  rw [Totals.mk.injEq]
  exact ⟨by rw [c1, c2]; exact hsum _, by rw [b1, b2]; exact hsum _,
    by rw [f1, f2]; exact hsum _, by rw [p1, p2]; exact hsum _⟩

/-- CLAIM C1 (amended) witness: two concrete duplicate-key-free provider
lists sharing the item key `"rice"` aggregate to the same totals in either
order. -/
theorem totals_swap_invariant_two_sources_witness :
    (aggregateResults
        [⟨[⟨"Rice", 150, "g", 200, 1, 2, 3⟩], ⟨200, 1, 2, 3⟩⟩,
         ⟨[⟨"rice", 170, "ml", 220, 2, 3, 4⟩, ⟨"pear", 1, "g", 57, 15, 0, 1⟩],
          ⟨277, 17, 3, 5⟩⟩]).totalNutrition =
      (aggregateResults
        [⟨[⟨"rice", 170, "ml", 220, 2, 3, 4⟩, ⟨"pear", 1, "g", 57, 15, 0, 1⟩],
          ⟨277, 17, 3, 5⟩⟩,
         ⟨[⟨"Rice", 150, "g", 200, 1, 2, 3⟩], ⟨200, 1, 2, 3⟩⟩]).totalNutrition :=
  totals_swap_invariant_two_sources
    ⟨[⟨"Rice", 150, "g", 200, 1, 2, 3⟩], ⟨200, 1, 2, 3⟩⟩
    ⟨[⟨"rice", 170, "ml", 220, 2, 3, 4⟩, ⟨"pear", 1, "g", 57, 15, 0, 1⟩],
      ⟨277, 17, 3, 5⟩⟩ (by decide) (by decide)

/-- Helper: the nested fold of the merge loop (results, then items) equals a
single fold over the concatenation of all providers' item lists in arrival
order. -/
theorem foldl_insertItem_flatten (rs : List SourceResult) (m : List (String × Item)) :
    rs.foldl (fun m r => r.items.foldl insertItem m) m =
      ((rs.map SourceResult.items).flatten).foldl insertItem m := by
  induction rs generalizing m with
  | nil => rfl
  | cons r t ih =>
    simp only [List.foldl_cons, List.map_cons, List.flatten_cons, List.foldl_append]
    exact ih _

/-- Helper: key uniqueness of the item map built from any source list. -/
theorem nodup_mapKeys_buildItemMap (rs : List SourceResult) :
    (mapKeys (buildItemMap rs)).Nodup := by
  unfold buildItemMap
  rw [foldl_insertItem_flatten]
  exact nodup_mapKeys_foldl _ _ (by simp [mapKeys])

/-- Helper: items whose key is not `q` are transparent to the evolution of
the `q`-entry, so the fold may be restricted to the `q`-keyed items. -/
theorem mergeFold_filter (q : String) (o : Option Item) (L : List Item) :
    mergeFold q o L = mergeFold q o (L.filter fun it => keyOf it == q) := by
  induction L generalizing o with
  | nil => rfl
  | cons it t ih =>
    by_cases h : keyOf it = q
    · have hb : (keyOf it == q) = true := by simp [h]
      simp only [mergeFold, List.foldl_cons, if_pos h, List.filter_cons, hb, if_true]
      exact ih _
    · have hb : (keyOf it == q) = false := by simp [h]
      simp only [mergeFold, List.foldl_cons, if_neg h, List.filter_cons, hb,
        Bool.false_eq_true, if_false]
      exact ih _

/-- Helper: over items that all carry key `q`, the `q`-entry is the running
pairwise merge of the whole chain. -/
theorem mergeFold_all_match (q : String) (ms : List Item) :
    ∀ e : Item, (∀ it ∈ ms, keyOf it = q) →
      mergeFold q (some e) ms = some (ms.foldl mergeItem e) := by
  induction ms with
  | nil =>
    intro e _
    rfl
  | cons it t ih =>
    intro e h
    have h1 : keyOf it = q := h it (List.mem_cons_self it t)
    simp only [mergeFold, List.foldl_cons, if_pos h1]
    exact ih (mergeItem e it) fun x hx => h x (List.mem_cons_of_mem it hx)

/-- Helper: a chain of pairwise merges keeps the `unit` of its first item. -/
theorem foldl_mergeItem_unit (ms : List Item) : ∀ e : Item,
    (ms.foldl mergeItem e).unit = e.unit := by
  induction ms with
  | nil =>
    intro e
    rfl
  | cons it t ih =>
    intro e
    simp only [List.foldl_cons]
    rw [ih]
    rfl

/-- Helper: a chain of pairwise merges ends up named after its last item. -/
theorem foldl_mergeItem_name (ms : List Item) (e : Item) :
    (ms.foldl mergeItem e).name = ((ms.getLast?).getD e).name := by
  induction ms using List.reverseRecOn with
  | nil => rfl
  | append_singleton l a ih =>
    rw [List.foldl_append]
    simp [List.getLast?_concat, mergeItem]

/-- CLAIM C9. For every merge of two or more items sharing the same
normalized key `q` — `m0` first-arriving, then the chain `ms`, in provider
arrival order across any number of providers — the merged map entry is the
running pairwise merge of the whole chain, its `name` is the free-text
spelling of the most recently merged (last-arriving) item, not the
first-seen spelling whenever the two differ, while its `unit` is kept from
the first-seen item; the merged item is what the aggregation returns. -/
theorem merged_name_from_last_provider (rs : List SourceResult) (q : String)
    (m0 : Item) (ms : List Item) (hlen : 2 ≤ rs.length)
    (hM : ((rs.map SourceResult.items).flatten).filter (fun it => keyOf it == q) =
      m0 :: ms) :
    ∃ v : Item,
      lookupKey (buildItemMap rs) q = some v ∧
      v ∈ (aggregateResults rs).items ∧
      v.unit = m0.unit ∧
      v.name = ((ms.getLast?).getD m0).name ∧
      (((ms.getLast?).getD m0).name ≠ m0.name → v.name ≠ m0.name) := by
  have hall : ∀ it ∈ m0 :: ms, keyOf it = q := by
    intro it hit
    have hmemf : it ∈
        ((rs.map SourceResult.items).flatten).filter (fun it => keyOf it == q) := by
      rw [hM]
      exact hit
    have := List.of_mem_filter hmemf
    simpa using this
  have hm0 : keyOf m0 = q := hall m0 (List.mem_cons_self m0 ms)
  have hms : ∀ it ∈ ms, keyOf it = q :=
    fun it hit => hall it (List.mem_cons_of_mem m0 hit)
  have hlook : lookupKey (buildItemMap rs) q = some (ms.foldl mergeItem m0) := by
    unfold buildItemMap
    rw [foldl_insertItem_flatten, lookupKey_foldl_insertItem]
    show mergeFold q none _ = _
    rw [mergeFold_filter, hM]
    simp only [mergeFold, List.foldl_cons, if_pos hm0]
    exact mergeFold_all_match q ms m0 hms
  refine ⟨ms.foldl mergeItem m0, hlook, ?_, foldl_mergeItem_unit ms m0,
    foldl_mergeItem_name ms m0, ?_⟩
  · have hnd : (mapKeys (buildItemMap rs)).Nodup := nodup_mapKeys_buildItemMap rs
    have hmem : (q, ms.foldl mergeItem m0) ∈ buildItemMap rs :=
      (mem_iff_lookupKey _ _ _ hnd).mpr hlook
    rcases rs with _ | ⟨r1, _ | ⟨r2, t⟩⟩
    · simp at hlen
    · simp at hlen
    · simpa [aggregateResults] using List.mem_map_of_mem Prod.snd hmem
  · intro hne
    rw [foldl_mergeItem_name ms m0]
    exact hne

/-- CLAIM C9 witness: three providers report the same item as `"Rice"` (unit
`"g"`), `"RICE"` (unit `"ml"`) and `"rice "` (unit `"cup"`), a three-item
same-key chain; the merged entry is named `"rice "` — the last-arriving
spelling, differing from the first-seen `"Rice"` — and keeps the first-seen
unit `"g"`. -/
theorem merged_name_from_last_provider_witness :
    ∃ v : Item,
      lookupKey
          (buildItemMap
            [⟨[⟨"Rice", 100, "g", 10, 0, 0, 0⟩], ⟨10, 0, 0, 0⟩⟩,
             ⟨[⟨"RICE", 200, "ml", 20, 0, 0, 0⟩], ⟨20, 0, 0, 0⟩⟩,
             ⟨[⟨"rice ", 300, "cup", 30, 0, 0, 0⟩], ⟨30, 0, 0, 0⟩⟩]) "rice" =
        some v ∧
      v ∈ (aggregateResults
            [⟨[⟨"Rice", 100, "g", 10, 0, 0, 0⟩], ⟨10, 0, 0, 0⟩⟩,
             ⟨[⟨"RICE", 200, "ml", 20, 0, 0, 0⟩], ⟨20, 0, 0, 0⟩⟩,
             ⟨[⟨"rice ", 300, "cup", 30, 0, 0, 0⟩], ⟨30, 0, 0, 0⟩⟩]).items ∧
      v.unit = "g" ∧
      v.name = "rice " ∧
      v.name ≠ "Rice" := by
  obtain ⟨v, h1, h2, h3, h4, h5⟩ := merged_name_from_last_provider
    [⟨[⟨"Rice", 100, "g", 10, 0, 0, 0⟩], ⟨10, 0, 0, 0⟩⟩,
     ⟨[⟨"RICE", 200, "ml", 20, 0, 0, 0⟩], ⟨20, 0, 0, 0⟩⟩,
     ⟨[⟨"rice ", 300, "cup", 30, 0, 0, 0⟩], ⟨30, 0, 0, 0⟩⟩] "rice"
    ⟨"Rice", 100, "g", 10, 0, 0, 0⟩
    [⟨"RICE", 200, "ml", 20, 0, 0, 0⟩, ⟨"rice ", 300, "cup", 30, 0, 0, 0⟩]
    (by simp) (by decide)
  exact ⟨v, h1, h2, h3, h4.trans rfl, h5 (by decide)⟩
